import Mathlib

/-!
Shallow embedding of the trend-following scanner core
(`scanner_core.py`, `merge_chunks.py`, `update_daily.py`).

Modelling conventions:
* Prices, volumes and derived indicator values are rationals (`ℚ`); the
  Python code uses IEEE floats but every claim under study concerns order
  comparisons, clamping and exact table lookups, which agree over `ℚ`.
* A pandas `Series` aligned to the bar index is a `List (Option ℚ)`;
  `none` stands for `NaN` (indicator warm-up).  pandas comparisons with
  `NaN` yield `False`, and rolling aggregations with the default
  `min_periods` yield `NaN` unless the whole window is non-`NaN`; both
  conventions are reproduced below.
* `close.rolling(n).std(ddof=0)` takes a real square root, which is
  irrational in general; the embedding therefore takes the square-root
  function as an explicit parameter `sq : ℚ → ℚ`.  No claim under study
  depends on the values produced by `sq`.
* Division of two series where the denominator is zero produces `±inf`
  or `NaN` in pandas; the code always guards these spots with
  `.replace(0, np.nan)` except inside `adx`, where the embedding maps a
  zero denominator to `none` as well.
-/

/-- Option-valued series: `none` models a pandas `NaN` entry. -/
abbrev OSeries := List (Option ℚ)

/-- Last `n` elements of a list (pandas `tail(n)`). -/
def lastN (n : ℕ) (l : List α) : List α := l.drop (l.length - n)

/-- The trailing window of size at most `n` ending at index `i`
(the window pandas hands to a `rolling(n)` aggregate at row `i`). -/
def windowAt (n : ℕ) (s : List α) (i : ℕ) : List α :=
  (s.take (i+1)).drop (i + 1 - n)

/-- Sequencing over a list of options: `some` of the values when every
entry is defined, otherwise `none`. -/
def listAllSome : List (Option ℚ) → Option (List ℚ)
  | [] => some []
  | none :: _ => none
  | some x :: rest => (listAllSome rest).map (x :: ·)

/-- Pointwise binary arithmetic on series; `NaN` propagates. -/
def omap2 (f : ℚ → ℚ → ℚ) : Option ℚ → Option ℚ → Option ℚ
  | some a, some b => some (f a b)
  | _, _ => none

/-- Zip two series with an arithmetic operation (`NaN` propagates). -/
def ozip (f : ℚ → ℚ → ℚ) (xs ys : OSeries) : OSeries :=
  List.zipWith (omap2 f) xs ys

/-- Pointwise comparison of two series, `False` on `NaN`
(pandas comparison semantics). -/
def ocmp (f : ℚ → ℚ → Bool) (xs ys : OSeries) : List Bool :=
  List.zipWith (fun a b =>
    match a, b with
    | some a, some b => f a b
    | _, _ => false) xs ys

/-- Comparison of a series against a scalar predicate, `False` on `NaN`. -/
def ocmpScalar (f : ℚ → Bool) (xs : OSeries) : List Bool :=
  xs.map (fun o => o.elim false f)

/-- Map a scalar function over a series (`NaN` propagates). -/
def oscale (f : ℚ → ℚ) (xs : OSeries) : OSeries :=
  xs.map (·.map f)

/-- Series division; a zero denominator (like a `NaN` one) yields `none`.
The code reaches this either through `.replace(0, np.nan)` (exact match)
or inside `adx` (see the module comment). -/
def odiv : Option ℚ → Option ℚ → Option ℚ
  | some a, some b => if b = 0 then none else some (a / b)
  | _, _ => none

/-- Model of `Series.shift(1)`: everything moves one slot later, first entry `NaN`. -/
def shift1 (xs : OSeries) : OSeries := none :: xs.dropLast

/-- Model of `Series.diff()`: `x - x.shift(1)`. -/
def diffO (xs : OSeries) : OSeries := ozip (· - ·) xs (shift1 xs)

/-- Rolling mean entry at index `i` of a (possibly `NaN`-holding) series:
defined only when the window is full and entirely non-`NaN`
(pandas default `min_periods = n`). -/
def rollingMeanAt (n : ℕ) (xs : OSeries) (i : ℕ) : Option ℚ :=
  if i + 1 < n then none
  else match listAllSome (windowAt n xs i) with
    | some vals => some (vals.sum / n)
    | none => none

/-- Model of `Series.rolling(n).mean()`. -/
def rollingMean (n : ℕ) (xs : OSeries) : OSeries :=
  (List.range xs.length).map (rollingMeanAt n xs)

/-- Model of `Series.rolling(n).sum()`. -/
def rollingSum (n : ℕ) (xs : OSeries) : OSeries :=
  (List.range xs.length).map (fun i =>
    if i + 1 < n then none
    else match listAllSome (windowAt n xs i) with
      | some vals => some vals.sum
      | none => none)

/-- Population variance of a full window (helper for `rolling.std(ddof=0)`). -/
def popVar (vals : List ℚ) : ℚ :=
  let m := vals.sum / vals.length
  (vals.map (fun v => (v - m) ^ 2)).sum / vals.length

/-- Model of `Series.rolling(n).std(ddof=0)`, with the square root supplied as `sq`. -/
def rollingStd (sq : ℚ → ℚ) (n : ℕ) (xs : OSeries) : OSeries :=
  (List.range xs.length).map (fun i =>
    if i + 1 < n then none
    else match listAllSome (windowAt n xs i) with
      | some vals => some (sq (popVar vals))
      | none => none)

/-! Embedding of `percentile_rank` (scanner_core.py lines 15–19). -/

/-- The window aggregator `pct` inside `percentile_rank`:
`100 * (np.sum(x <= x[-1]) - 1) / (len(x) - 1)`, `NaN` when the window
holds fewer than two bars. -/
def pct (x : List ℚ) : Option ℚ :=
  if x.length < 2 then none
  else some (100 * (((x.countP (fun v => decide (v ≤ x.getLastD 0))) : ℚ) - 1)
      / ((x.length : ℚ) - 1))

/-- Model of `percentile_rank(s, lookback)`:
`s.rolling(lookback).apply(pct, raw=True)`.  The rolling machinery hands
`pct` a full window only when all `lookback` entries are non-`NaN`. -/
def percentile_rank (s : OSeries) (lookback : ℕ) : OSeries :=
  (List.range s.length).map (fun i =>
    if i + 1 < lookback then none
    else match listAllSome (windowAt lookback s i) with
      | some xs => pct xs
      | none => none)

/-! Supporting lemmas for the `percentile_rank` claim. -/

theorem listAllSome_map_some (l : List ℚ) : listAllSome (l.map some) = some l := by
  induction l with
  | nil => rfl
  | cons x xs ih => simp [listAllSome, ih]

theorem windowAt_map_some (n : ℕ) (s : List ℚ) (i : ℕ) :
    windowAt n (s.map some) i = (windowAt n s i).map some := by
  simp [windowAt, List.map_take, List.map_drop]

theorem windowAt_length (n : ℕ) (s : List α) (i : ℕ) (hn : n ≤ i + 1)
    (hi : i < s.length) : (windowAt n s i).length = n := by
  simp only [windowAt, List.length_drop, List.length_take]
  omega

theorem windowAt_ne_nil (n : ℕ) (s : List α) (i : ℕ) (hn : n ≤ i + 1)
    (hi : i < s.length) (hpos : 0 < n) : windowAt n s i ≠ [] := by
  intro h
  have := windowAt_length n s i hn hi
  rw [h] at this
  simp at this
  omega

/-- The last element of a nonempty list is counted by `countP (· ≤ last)`. -/
theorem one_le_countP_le_last (x : List ℚ) (hx : x ≠ []) :
    1 ≤ x.countP (fun v => decide (v ≤ x.getLastD 0)) := by
  have hmem : x.getLastD 0 ∈ x := by
    rcases List.exists_cons_of_ne_nil hx with ⟨a, t, rfl⟩
    rw [List.getLastD_eq_getLast?, List.getLast?_eq_getLast (a :: t) (by simp)]
    exact List.getLast_mem _
  have := List.countP_pos_iff (p := fun v => decide (v ≤ x.getLastD 0)) (l := x)
  exact this.mpr ⟨x.getLastD 0, hmem, by simp⟩

/-- C5. statement: The bandwidth percentile rank at each bar equals
`100·(count(window ≤ last) − 1)/(window_size − 1)` over the trailing
`lookback` window; windows shorter than 2 bars yield indeterminate
(`none`), and the rank lies in `[0, 100]` whenever it is defined. -/
theorem percentile_rank_formula_and_bounds :
    (∀ x : List ℚ, x.length < 2 → pct x = none) ∧
    (∀ (s : List ℚ) (lookback i : ℕ), 2 ≤ lookback → lookback ≤ i + 1 →
      i < s.length →
      ∃ r, (percentile_rank (s.map some) lookback).getD i none = some r ∧
        r = 100 * (((windowAt lookback s i).countP
              (fun v => decide (v ≤ (windowAt lookback s i).getLastD 0)) : ℚ) - 1)
            / ((lookback : ℚ) - 1) ∧
        0 ≤ r ∧ r ≤ 100) := by
  constructor
  · intro x hx
    simp [pct, hx]
  · intro s lookback i hlb hwin hi
    have hlen : ((s.map some : OSeries)).length = s.length := by simp
    have hget : (percentile_rank (s.map some) lookback).getD i none =
        (if i + 1 < lookback then none
          else match listAllSome (windowAt lookback (s.map some) i) with
            | some xs => pct xs
            | none => none) := by
      have hi' : i < ((List.range (s.map some : OSeries).length).map (fun i =>
          if i + 1 < lookback then none
          else match listAllSome (windowAt lookback (s.map some) i) with
            | some xs => pct xs
            | none => none)).length := by
        simpa using hi
      rw [percentile_rank, List.getD_eq_getElem _ _ hi']
      simp
    rw [windowAt_map_some, listAllSome_map_some] at hget
    have hwl : (windowAt lookback s i).length = lookback :=
      windowAt_length lookback s i hwin hi
    have hne : windowAt lookback s i ≠ [] :=
      windowAt_ne_nil lookback s i hwin hi (by omega)
    set w := windowAt lookback s i with hw
    set c := w.countP (fun v => decide (v ≤ w.getLastD 0)) with hc
    have h1 : 1 ≤ c := one_le_countP_le_last w hne
    have h2 : c ≤ lookback := hwl ▸ List.countP_le_length _
    have hpct : pct w = some (100 * ((c : ℚ) - 1) / ((lookback : ℚ) - 1)) := by
      rw [pct, if_neg (by omega), hwl]
    refine ⟨100 * ((c : ℚ) - 1) / ((lookback : ℚ) - 1), ?_, rfl, ?_, ?_⟩
    · rw [hget, if_neg (by omega)]
      exact hpct
    · apply div_nonneg
      · have : (1 : ℚ) ≤ (c : ℚ) := by exact_mod_cast h1
        nlinarith
      · have : (2 : ℚ) ≤ (lookback : ℚ) := by exact_mod_cast hlb
        linarith
    · have hcq : (c : ℚ) ≤ (lookback : ℚ) := by exact_mod_cast h2
      have hlbq : (2 : ℚ) ≤ (lookback : ℚ) := by exact_mod_cast hlb
      rw [mul_div_assoc]
      have hq : ((c : ℚ) - 1) / ((lookback : ℚ) - 1) ≤ 1 := by
        rw [div_le_one (by linarith)]
        linarith
      nlinarith

/-- Witness for C5 at a concrete window: `s = [1, 2, 3]`, `lookback = 2`,
final index `i = 2`. -/
theorem percentile_rank_formula_and_bounds_witness :
    (pct [] = none) ∧
    (∃ r, (percentile_rank ([1, 2, 3].map some) 2).getD 2 none = some r ∧
      r = 100 * (((windowAt 2 [(1:ℚ), 2, 3] 2).countP
            (fun v => decide (v ≤ (windowAt 2 [(1:ℚ), 2, 3] 2).getLastD 0)) : ℚ) - 1)
          / ((2 : ℚ) - 1) ∧
      0 ≤ r ∧ r ≤ 100) :=
  ⟨percentile_rank_formula_and_bounds.1 [] (by decide),
   percentile_rank_formula_and_bounds.2 [1, 2, 3] 2 2 (by decide) (by decide) (by decide)⟩

/-! Data model. -/

/-- One OHLCV bar of the price series (a row of the pandas DataFrame). -/
structure Bar where
  Open : ℚ
  High : ℚ
  Low : ℚ
  Close : ℚ
  Volume : ℚ
deriving DecidableEq

/-- The recognized configuration fields with their `cfg.get(...)` defaults
as read by `calculate_signals` and `update_daily`. -/
structure Config where
  bollinger_length : ℕ := 60
  bollinger_stdev : ℚ := 2
  bandwidth_lookback : ℕ := 60
  adx_len : ℕ := 14
  adx_min : ℚ := 20
  climax_mult : ℚ := 5
  vol_confirm_mult : ℚ := 3/2
  min_close : ℚ := 0

/-- Optional investor-flow record (`investor_data` dict). -/
structure InvestorFlow where
  foreign_consecutive_buy : ℤ := 0
  inst_net_buy_5d : ℚ := 0
  foreign_net_buy_5d : ℚ := 0

/-- The signal dictionary returned by `calculate_signals`. -/
structure SigSet where
  upper : OSeries
  lower : OSeries
  mid : OSeries
  bbw_pct : OSeries
  adx : OSeries
  ma20 : OSeries
  ma50 : OSeries
  ma200 : OSeries
  vol_ma20 : OSeries
  vol_confirm : List Bool
  climax_high : OSeries
  climax_low : OSeries
  is_climax : List Bool
  door_knock : List Bool
  squeeze : List Bool
  vol_explosion : List Bool
  vol_dryup_count : OSeries
  setup_a : List Bool
  setup_b : List Bool
  setup_c : List Bool

/-! Indicator engine (scanner_core.py lines 5–44). -/

/-- Model of `bollinger_bands(close, n, k)`: rolling mean, upper and lower band.
`sq` supplies the square root used by `rolling.std(ddof=0)`. -/
def bollinger_bands (sq : ℚ → ℚ) (close : OSeries) (n : ℕ) (k : ℚ) :
    OSeries × OSeries × OSeries :=
  let mid := rollingMean n close
  let sd := rollingStd sq n close
  let upper := ozip (· + ·) mid (oscale (k * ·) sd)
  let lower := ozip (· - ·) mid (oscale (k * ·) sd)
  (mid, upper, lower)

/-- Model of `bandwidth(mid, upper, lower) = (upper - lower) / mid.replace(0, nan)`. -/
def bandwidth (mid upper lower : OSeries) : OSeries :=
  List.zipWith odiv (ozip (· - ·) upper lower) mid

/-- The three-way true range `max(high-low, |high-prevClose|, |low-prevClose|)`;
pandas `.max(axis=1)` skips `NaN` entries, and `high - low` is always defined. -/
def true_range (high low close : List ℚ) : List ℚ :=
  let prev_close := shift1 (close.map some)
  let tr1 := List.zipWith (· - ·) high low
  let tr2 := List.zipWith (fun h pc => pc.map (fun p => |h - p|)) high prev_close
  let tr3 := List.zipWith (fun l pc => pc.map (fun p => |l - p|)) low prev_close
  List.zipWith (fun t1 (p : Option ℚ × Option ℚ) =>
      max t1 (max (p.1.getD t1) (p.2.getD t1)))
    tr1 (tr2.zip tr3)

/-- Model of `adx(high, low, close, n)` (scanner_core.py lines 21–36).
`np.where` turns a comparison against `NaN` into the `0.0` branch. -/
def adx (high low close : List ℚ) (n : ℕ) : OSeries :=
  let up := diffO (high.map some)
  let down := oscale Neg.neg (diffO (low.map some))
  let plus_dm : List ℚ := List.zipWith (fun u d =>
      match u, d with
      | some u, some d => if u > d ∧ u > 0 then u else 0
      | _, _ => 0) up down
  let minus_dm : List ℚ := List.zipWith (fun u d =>
      match u, d with
      | some u, some d => if d > u ∧ d > 0 then d else 0
      | _, _ => 0) up down
  let tr := true_range high low close
  let atr := rollingMean n (tr.map some)
  let plus_di := List.zipWith odiv (oscale (100 * ·) (rollingMean n (plus_dm.map some))) atr
  let minus_di := List.zipWith odiv (oscale (100 * ·) (rollingMean n (minus_dm.map some))) atr
  let denom := (ozip (· + ·) plus_di minus_di).map (fun o =>
      o.bind (fun v => if v = 0 then none else some v))
  let dx := List.zipWith odiv
      (oscale (100 * ·) ((ozip (· - ·) plus_di minus_di).map (·.map abs))) denom
  rollingMean n dx

/-- Forward fill of `xs.where(mask).ffill()`: each entry carries the value
at the most recent `true` position of the mask, `none` before the first. -/
def ffillWhere (mask : List Bool) (xs : List ℚ) : OSeries :=
  let rec go (cur : Option ℚ) : List (Bool × ℚ) → OSeries
    | [] => []
    | (m, x) :: rest =>
      let cur' := if m then some x else cur
      cur' :: go cur' rest
  go none (mask.zip xs)

/-- Model of `find_climax_bar(df, mult)` (scanner_core.py lines 38–44). -/
def find_climax_bar (df : List Bar) (mult : ℚ) :
    OSeries × OSeries × List Bool :=
  let vol := df.map (·.Volume)
  let vol_avg20 := rollingMean 20 (vol.map some)
  let is_climax := ocmp (fun v a => decide (v ≥ mult * a)) (vol.map some) vol_avg20
  let climax_high := ffillWhere is_climax (df.map (·.High))
  let climax_low := ffillWhere is_climax (df.map (·.Low))
  (climax_high, climax_low, is_climax)

/-- Model of `calculate_signals(df, cfg)` (scanner_core.py lines 46–102):
`None` when the series holds fewer than 60 bars, otherwise the signal set. -/
def calculate_signals (sq : ℚ → ℚ) (df : List Bar) (cfg : Config) :
    Option SigSet :=
  if df.length < 60 then none
  else
    let close := (df.map (·.Close)).map some
    let high := df.map (·.High)
    let low := df.map (·.Low)
    let vol := (df.map (·.Volume)).map some
    let n := cfg.bollinger_length
    let k := cfg.bollinger_stdev
    let mul := bollinger_bands sq close n k
    let mid := mul.1
    let upper := mul.2.1
    let lower := mul.2.2
    let bbw := bandwidth mid upper lower
    let lookback := cfg.bandwidth_lookback
    let bbw_pct := percentile_rank bbw lookback
    let adx_val := adx high low (df.map (·.Close)) cfg.adx_len
    let ma20 := rollingMean 20 close
    let ma50 := rollingMean 50 close
    let ma200 := rollingMean 200 close
    let vol_ma20 := rollingMean 20 vol
    let climax := find_climax_bar df cfg.climax_mult
    let climax_high := climax.1
    let climax_low := climax.2.1
    let is_climax := climax.2.2
    let door_knock := List.zipWith (· && ·)
      (ocmp (fun c u => decide (c ≥ u * (95/100))) close upper)
      (ocmp (fun c u => decide (c ≤ u * (102/100))) close upper)
    let squeeze := ocmpScalar (fun v => decide (v ≤ 20)) bbw_pct
    let vol_confirm := ocmp (fun v a => decide (v ≥ cfg.vol_confirm_mult * a)) vol vol_ma20
    let vol_explosion := ocmp (fun v a => decide (v ≥ a * 3)) vol vol_ma20
    let vol_dryup := ocmp (fun v a => decide (v < a * (7/10))) vol vol_ma20
    let vol_dryup_count := rollingSum 15
      ((vol_dryup.map (fun b => if b then (1:ℚ) else 0)).map some)
    let adx_ok := ocmpScalar (fun v => decide (v ≥ cfg.adx_min)) adx_val
    let breakout_60 := ocmp (fun c u => decide (c > u)) close upper
    let setup_a := List.zipWith (· && ·) (List.zipWith (· && ·) squeeze breakout_60)
      (List.zipWith (· && ·) vol_confirm adx_ok)
    let setup_b := List.zipWith (· && ·)
      (List.zipWith (· && ·) (climax_high.map (·.isSome))
        (ocmp (fun c ch => decide (c > ch)) close climax_high))
      vol_confirm
    let ma20_crossover := List.zipWith (· && ·)
      (ocmp (fun c m => decide (c > m)) close ma20)
      (ocmp (fun c m => decide (c ≤ m)) (shift1 close) (shift1 ma20))
    let setup_c := List.zipWith (· && ·) ma20_crossover
      (List.zipWith (· && ·) vol_confirm adx_ok)
    some {
      upper := upper, lower := lower, mid := mid,
      bbw_pct := bbw_pct, adx := adx_val,
      ma20 := ma20, ma50 := ma50, ma200 := ma200,
      vol_ma20 := vol_ma20, vol_confirm := vol_confirm,
      climax_high := climax_high, climax_low := climax_low, is_climax := is_climax,
      door_knock := door_knock, squeeze := squeeze,
      vol_explosion := vol_explosion, vol_dryup_count := vol_dryup_count,
      setup_a := setup_a, setup_b := setup_b, setup_c := setup_c }

/-! Embedding of `score_stock` (scanner_core.py lines 104–296). -/

/-- Model of `safe_get(series, last, default)`: the series value at the final bar,
or `default` when missing or `NaN`. -/
def safe_get (s : OSeries) (default : ℚ) : ℚ :=
  (s.getLastD none).getD default

/-- Model of `safe_bool(series, last)`: the boolean series value at the final bar,
`False` when missing. -/
def safe_bool (s : List Bool) : Bool :=
  s.getLastD false

/-- The scalar values `score_stock` extracts from `df`/`sig` at the final
bar before scoring (each through `safe_get`/`safe_bool` or direct access). -/
structure ScoreInputs where
  close : ℚ
  vol : ℚ
  ma20 : ℚ
  ma50 : ℚ
  ma200 : ℚ
  adx_val : ℚ
  vol_ma20 : ℚ
  door_knock : Bool
  squeeze : Bool
  setup_a : Bool
  setup_b : Bool
  setup_c : Bool
  vol_confirm : Bool
  vol_explosion_any60 : Bool
  dryup_count : ℚ
  climax_low_last : Option ℚ
  low_tail10_min : ℚ
  investor_data : Option InvestorFlow
  rs_3m : ℚ
  rs_6m : ℚ
  index_above_ma20 : Bool
  bbw_pct_last : ℚ
  upper_last_default : ℚ

/-- The record `score_stock` returns.  Sub-scores are integers in the
source (Python later casts them through `float`); `risk_pct` is the
percentage `risk_pct * 100` of the return statement. -/
structure ScoreResult where
  close : ℚ
  stop : ℚ
  trend_score : ℤ
  pattern_score : ℤ
  volume_score : ℤ
  supply_score : ℤ
  risk_score : ℤ
  total_score : ℤ
  risk_pct : ℚ
  bbw_pct : ℚ
  adx : ℚ
  setup : String
  ma20 : ℚ
  ma60 : ℚ
  bb_upper : ℚ
  door_knock : Bool
  squeeze : Bool

/-- ADX tier bonus of the trend score (lines 146–150). -/
def adx_tier_points (adx_val : ℚ) : ℤ :=
  if adx_val ≥ 40 then 5
  else if adx_val ≥ 30 then 4
  else if adx_val ≥ 25 then 3
  else if adx_val ≥ 20 then 2
  else 0

/-- Trend score before the cap (lines 139–153). -/
def trend_score_raw (inp : ScoreInputs) : ℤ :=
  (if inp.close > inp.ma20 then 5 else 0)
  + (if inp.close > inp.ma50 then 5 else 0)
  + (if inp.close > inp.ma200 then 5 else 0)
  + (if inp.ma20 > inp.ma50 then 3 else 0)
  + (if inp.ma50 > inp.ma200 then 2 else 0)
  + adx_tier_points inp.adx_val

/-- Trend score, capped at 25 (line 155). -/
def trend_score (inp : ScoreInputs) : ℤ := min (trend_score_raw inp) 25

/-- Pattern/location score before the cap (lines 158–178). -/
def pattern_score_raw (inp : ScoreInputs) : ℤ :=
  (if inp.door_knock then 10 else 0)
  + (if inp.squeeze then 10 else 0)
  + (if inp.setup_b then 5 else if inp.setup_a then 4 else if inp.setup_c then 3 else 0)
  + (if inp.rs_3m ≥ 80 then 5 else 0)
  + (if inp.rs_6m ≥ 80 then 5 else 0)

/-- Pattern score, capped at 30 (line 180). -/
def pattern_score (inp : ScoreInputs) : ℤ := min (pattern_score_raw inp) 30

/-- The ratio `vol / vol_ma20 if vol_ma20 > 0 else 0` (line 184). -/
def vol_ratio (inp : ScoreInputs) : ℚ :=
  if inp.vol_ma20 > 0 then inp.vol / inp.vol_ma20 else 0

/-- Volume score before the cap (lines 183–209). -/
def volume_score_raw (inp : ScoreInputs) : ℤ :=
  (if inp.vol_explosion_any60 then 5 else 0)
  + (if inp.dryup_count ≥ 5 then 7
     else if inp.dryup_count ≥ 3 then 5
     else if inp.dryup_count ≥ 1 then 3
     else 0)
  + (if inp.vol_confirm then 8
     else if 12/10 ≤ vol_ratio inp ∧ vol_ratio inp < 2 then 5
     else if vol_ratio inp ≥ 1 then 3
     else 0)

/-- Volume score, capped at 20 (line 211). -/
def volume_score (inp : ScoreInputs) : ℤ := min (volume_score_raw inp) 20

/-- Supply/demand score before the cap (lines 214–230); zero when
`investor_data` is absent. -/
def supply_score_raw (inp : ScoreInputs) : ℤ :=
  match inp.investor_data with
  | none => 0
  | some flow =>
    (if flow.foreign_consecutive_buy ≥ 5 then 8
     else if flow.foreign_consecutive_buy ≥ 3 then 5
     else if flow.foreign_consecutive_buy ≥ 1 then 2
     else 0)
    + (if flow.inst_net_buy_5d > 0 then 4 else 0)
    + (if flow.foreign_net_buy_5d > 0 then 3 else 0)

/-- Supply score, capped at 15 (line 232). -/
def supply_score (inp : ScoreInputs) : ℤ := min (supply_score_raw inp) 15

/-- Initial stop price (lines 236–240): the forward-filled climax low when
trigger B is active and it exists, otherwise the 10-bar swing low; a
non-positive stop is replaced by `close * 0.92`. -/
def stop_before_risk (inp : ScoreInputs) : ℚ :=
  let stop :=
    match inp.climax_low_last with
    | some cl => if inp.setup_b then cl else inp.low_tail10_min
    | none => inp.low_tail10_min
  if stop ≤ 0 then inp.close * (92/100) else stop

/-- The raw risk fraction `(close - stop) / close` (line 241). -/
def raw_risk_pct (inp : ScoreInputs) : ℚ :=
  (inp.close - stop_before_risk inp) / inp.close

/-- The `(risk_pct, stop)` pair after the invalid-risk substitution
(lines 242–244): a raw risk fraction `≤ 0` or `> 0.15` is replaced by
`(0.08, close * 0.92)`. -/
def final_risk (inp : ScoreInputs) : ℚ × ℚ :=
  if raw_risk_pct inp ≤ 0 ∨ raw_risk_pct inp > 15/100 then
    (8/100, inp.close * (92/100))
  else
    (raw_risk_pct inp, stop_before_risk inp)

/-- The tiered risk deduction tables (lines 250–264), keyed on
`risk_pct * 100` and on the market-regime flag. -/
def risk_deduction (index_above_ma20 : Bool) (risk_pct_pct : ℚ) : ℤ :=
  if index_above_ma20 then
    if risk_pct_pct ≤ 5 then 0
    else if risk_pct_pct ≤ 6 then 1
    else if risk_pct_pct ≤ 7 then 2
    else if risk_pct_pct ≤ 8 then 3
    else if risk_pct_pct ≤ 9 then 5
    else if risk_pct_pct ≤ 10 then 7
    else if risk_pct_pct ≤ 11 then 9
    else 10
  else
    if risk_pct_pct ≤ 5 then 0
    else if risk_pct_pct ≤ 6 then 2
    else if risk_pct_pct ≤ 7 then 4
    else if risk_pct_pct ≤ 8 then 6
    else 10

/-- Risk score (lines 235, 266–270): 10 minus the deduction, floored at 0. -/
def risk_score (inp : ScoreInputs) : ℤ :=
  max 0 (10 - risk_deduction inp.index_above_ma20 ((final_risk inp).1 * 100))

/-- Setup tag decision (lines 275–279), in source order. -/
def setup_tag (inp : ScoreInputs) : String :=
  if inp.setup_b then "B"
  else if inp.setup_a then "A"
  else if inp.setup_c then "C"
  else if inp.door_knock && inp.squeeze then "R"
  else "-"

/-- The scoring body of `score_stock` over the extracted final-bar values
(lines 136–296). -/
def scoreCore (inp : ScoreInputs) : ScoreResult :=
  let t := trend_score inp
  let p := pattern_score inp
  let v := volume_score inp
  let s := supply_score inp
  let r := risk_score inp
  { close := inp.close
    stop := (final_risk inp).2
    trend_score := t
    pattern_score := p
    volume_score := v
    supply_score := s
    risk_score := r
    total_score := t + p + v + s + r
    risk_pct := (final_risk inp).1 * 100
    bbw_pct := inp.bbw_pct_last
    adx := inp.adx_val
    setup := setup_tag inp
    ma20 := inp.ma20
    ma60 := inp.ma50
    bb_upper := inp.upper_last_default
    door_knock := inp.door_knock
    squeeze := inp.squeeze }

/-- The extraction prologue of `score_stock` (lines 113–133, 159–163,
185–193, 236–239, 290–293): every per-series value read at the final bar. -/
def extractInputs (df : List Bar) (sig : SigSet)
    (investor_data : Option InvestorFlow) (rs_3m rs_6m : ℚ)
    (index_above_ma20 : Bool) : ScoreInputs :=
  let close := (df.map (·.Close)).getLastD 0
  { close := close
    vol := (df.map (·.Volume)).getLastD 0
    ma20 := safe_get sig.ma20 close
    ma50 := safe_get sig.ma50 close
    ma200 := safe_get sig.ma200 close
    adx_val := safe_get sig.adx 0
    vol_ma20 := safe_get sig.vol_ma20 1
    door_knock := safe_bool sig.door_knock
    squeeze := safe_bool sig.squeeze
    setup_a := safe_bool sig.setup_a
    setup_b := safe_bool sig.setup_b
    setup_c := safe_bool sig.setup_c
    vol_confirm := safe_bool sig.vol_confirm
    vol_explosion_any60 := (lastN 60 sig.vol_explosion).any id
    dryup_count := safe_get sig.vol_dryup_count 0
    climax_low_last := sig.climax_low.getLastD none
    low_tail10_min := ((lastN 10 (df.map (·.Low))).min?).getD 0
    investor_data := investor_data
    rs_3m := rs_3m
    rs_6m := rs_6m
    index_above_ma20 := index_above_ma20
    bbw_pct_last := safe_get sig.bbw_pct 0
    upper_last_default := safe_get sig.upper close }

/-- Model of `score_stock(df, sig, cfg, ...)`: `None` when `sig` is `None`,
otherwise the scored record.  (`cfg` and `mktcap` are unused by the
source body and omitted here.) -/
def score_stock (df : List Bar) (sig : Option SigSet)
    (investor_data : Option InvestorFlow) (rs_3m rs_6m : ℚ)
    (index_above_ma20 : Bool) : Option ScoreResult :=
  match sig with
  | none => none
  | some sig =>
    some (scoreCore (extractInputs df sig investor_data rs_3m rs_6m index_above_ma20))

/-! Bounds of the five sub-scores. -/

theorem adx_tier_points_bounds (a : ℚ) :
    0 ≤ adx_tier_points a ∧ adx_tier_points a ≤ 5 := by
  unfold adx_tier_points
  split_ifs <;> omega

theorem trend_score_bounds (inp : ScoreInputs) :
    0 ≤ trend_score inp ∧ trend_score inp ≤ 25 := by
  have h := adx_tier_points_bounds inp.adx_val
  unfold trend_score trend_score_raw
  refine ⟨le_min ?_ (by omega), min_le_right _ _⟩
  split_ifs <;> omega

theorem pattern_score_bounds (inp : ScoreInputs) :
    0 ≤ pattern_score inp ∧ pattern_score inp ≤ 30 := by
  unfold pattern_score pattern_score_raw
  refine ⟨le_min ?_ (by omega), min_le_right _ _⟩
  split_ifs <;> omega

theorem volume_score_bounds (inp : ScoreInputs) :
    0 ≤ volume_score inp ∧ volume_score inp ≤ 20 := by
  unfold volume_score volume_score_raw
  refine ⟨le_min ?_ (by omega), min_le_right _ _⟩
  split_ifs <;> omega

theorem supply_score_bounds (inp : ScoreInputs) :
    0 ≤ supply_score inp ∧ supply_score inp ≤ 15 := by
  unfold supply_score supply_score_raw
  refine ⟨le_min ?_ (by omega), min_le_right _ _⟩
  cases inp.investor_data with
  | none => dsimp only; omega
  | some flow => dsimp only; split_ifs <;> omega

theorem risk_deduction_bounds (b : Bool) (p : ℚ) :
    0 ≤ risk_deduction b p ∧ risk_deduction b p ≤ 10 := by
  unfold risk_deduction
  cases b <;> split_ifs <;> omega

theorem risk_score_bounds (inp : ScoreInputs) :
    0 ≤ risk_score inp ∧ risk_score inp ≤ 10 := by
  have h := risk_deduction_bounds inp.index_above_ma20 ((final_risk inp).1 * 100)
  unfold risk_score
  omega

/-- C1. statement: For every input on which `score_stock` returns a result, the
result's `total_score` is exactly the sum of the five sub-scores, each
sub-score lies in `[0, cap]` (trend 25, pattern 30, volume 20, supply 15,
risk 10), and `total_score` lies in `[0, 100]` — no final clamp is applied
to the sum (the sum is the definition of `total_score`). -/
theorem score_stock_total_invariant :
    (∀ (df : List Bar) (sig : SigSet) (inv : Option InvestorFlow)
      (r3 r6 : ℚ) (ix : Bool),
      score_stock df (some sig) inv r3 r6 ix =
        some (scoreCore (extractInputs df sig inv r3 r6 ix))) ∧
    (∀ inp : ScoreInputs, inp.close ≠ 0 →
      (scoreCore inp).total_score =
          (scoreCore inp).trend_score + (scoreCore inp).pattern_score
          + (scoreCore inp).volume_score + (scoreCore inp).supply_score
          + (scoreCore inp).risk_score ∧
      0 ≤ (scoreCore inp).trend_score ∧ (scoreCore inp).trend_score ≤ 25 ∧
      0 ≤ (scoreCore inp).pattern_score ∧ (scoreCore inp).pattern_score ≤ 30 ∧
      0 ≤ (scoreCore inp).volume_score ∧ (scoreCore inp).volume_score ≤ 20 ∧
      0 ≤ (scoreCore inp).supply_score ∧ (scoreCore inp).supply_score ≤ 15 ∧
      0 ≤ (scoreCore inp).risk_score ∧ (scoreCore inp).risk_score ≤ 10 ∧
      0 ≤ (scoreCore inp).total_score ∧ (scoreCore inp).total_score ≤ 100) := by
  refine ⟨fun _ _ _ _ _ _ => rfl, fun inp _ => ?_⟩
  have ht := trend_score_bounds inp
  have hp := pattern_score_bounds inp
  have hv := volume_score_bounds inp
  have hs := supply_score_bounds inp
  have hr := risk_score_bounds inp
  have htot : (scoreCore inp).total_score =
      trend_score inp + pattern_score inp + volume_score inp
      + supply_score inp + risk_score inp := rfl
  refine ⟨rfl, ht.1, ht.2, hp.1, hp.2, hv.1, hv.2, hs.1, hs.2, hr.1, hr.2,
    ?_, ?_⟩ <;> omega

/-- A concrete scoring input used by the scoring witnesses. -/
def sampleInputs : ScoreInputs :=
  { close := 100, vol := 1000, ma20 := 90, ma50 := 80, ma200 := 70,
    adx_val := 0, vol_ma20 := 1,
    door_knock := false, squeeze := false,
    setup_a := false, setup_b := false, setup_c := false,
    vol_confirm := false, vol_explosion_any60 := false,
    dryup_count := 0, climax_low_last := none, low_tail10_min := 95,
    investor_data := none, rs_3m := 0, rs_6m := 0,
    index_above_ma20 := true, bbw_pct_last := 0, upper_last_default := 100 }

/-- Witness for C1 at `sampleInputs`. -/
theorem score_stock_total_invariant_witness :
    sampleInputs.close ≠ 0 ∧
    ((scoreCore sampleInputs).total_score =
        (scoreCore sampleInputs).trend_score + (scoreCore sampleInputs).pattern_score
        + (scoreCore sampleInputs).volume_score + (scoreCore sampleInputs).supply_score
        + (scoreCore sampleInputs).risk_score ∧
      0 ≤ (scoreCore sampleInputs).trend_score ∧ (scoreCore sampleInputs).trend_score ≤ 25 ∧
      0 ≤ (scoreCore sampleInputs).pattern_score ∧ (scoreCore sampleInputs).pattern_score ≤ 30 ∧
      0 ≤ (scoreCore sampleInputs).volume_score ∧ (scoreCore sampleInputs).volume_score ≤ 20 ∧
      0 ≤ (scoreCore sampleInputs).supply_score ∧ (scoreCore sampleInputs).supply_score ≤ 15 ∧
      0 ≤ (scoreCore sampleInputs).risk_score ∧ (scoreCore sampleInputs).risk_score ≤ 10 ∧
      0 ≤ (scoreCore sampleInputs).total_score ∧ (scoreCore sampleInputs).total_score ≤ 100) :=
  ⟨by decide, score_stock_total_invariant.2 sampleInputs (by decide)⟩

/-! Setup-tag classification (C2). -/

/-- Generic first-match priority chooser over (trigger, tag) pairs:
the tag of the first trigger that fires, else the default. -/
def first_match_tag : List (Bool × String) → String → String
  | [], d => d
  | (b, t) :: rest, d => if b then t else first_match_tag rest d

/-- Modelled from the spec's claimed priority `R > B > A > C > '-'`
(first match wins), over the same trigger booleans the code consults
(`R` fires on `door_knock ∧ squeeze`). -/
def spec_priority_setup_tag (r b a c : Bool) : String :=
  if r then "R" else if b then "B" else if a then "A" else if c then "C" else "-"

/-- A concrete input whose climax-breakout, door-knock and squeeze
triggers all fire simultaneously. -/
def allTriggerInputs : ScoreInputs :=
  { close := 100, vol := 1000, ma20 := 90, ma50 := 80, ma200 := 70,
    adx_val := 0, vol_ma20 := 1,
    door_knock := true, squeeze := true,
    setup_a := false, setup_b := true, setup_c := false,
    vol_confirm := true, vol_explosion_any60 := false,
    dryup_count := 0, climax_low_last := some 95, low_tail10_min := 95,
    investor_data := none, rs_3m := 0, rs_6m := 0,
    index_above_ma20 := true, bbw_pct_last := 0, upper_last_default := 100 }

/-- C2 counterexample: When trigger B, door-knock and squeeze all
fire, the code emits `"B"` while the claimed priority (R first) would
emit `"R"`: the claimed order `R > B > A > C` is not the code's order. -/
theorem setup_tag_priority_counterexample :
    (scoreCore allTriggerInputs).setup = "B" ∧
    spec_priority_setup_tag
      (allTriggerInputs.door_knock && allTriggerInputs.squeeze)
      allTriggerInputs.setup_b allTriggerInputs.setup_a
      allTriggerInputs.setup_c = "R" ∧
    ("B" : String) ≠ "R" :=
  ⟨rfl, rfl, by decide⟩

/-- C2 amended: The setup tag emitted by `score_stock` is a pure
function of the trigger booleans with the fixed priority, first match
wins, `B` (climax breakout) before `A` (squeeze breakout) before `C`
(MA20 breakout) before `R` (door-knock ∧ squeeze), and `"-"` when none
fires. -/
theorem setup_tag_code_priority :
    (∀ inp : ScoreInputs,
      (scoreCore inp).setup =
        first_match_tag
          [(inp.setup_b, "B"), (inp.setup_a, "A"), (inp.setup_c, "C"),
            (inp.door_knock && inp.squeeze, "R")] "-") ∧
    (∀ inp inp' : ScoreInputs,
      inp.setup_b = inp'.setup_b → inp.setup_a = inp'.setup_a →
      inp.setup_c = inp'.setup_c → inp.door_knock = inp'.door_knock →
      inp.squeeze = inp'.squeeze →
      (scoreCore inp).setup = (scoreCore inp').setup) := by
  constructor
  · intro inp
    rfl
  · intro inp inp' hb ha hc hd hs
    show setup_tag inp = setup_tag inp'
    unfold setup_tag
    rw [hb, ha, hc, hd, hs]

/-! Risk substitution and bounds (C3). -/

/-- C3. statement: Whenever the raw risk fraction `(close − stop)/close` is
`≤ 0` or above 15%, `score_stock` substitutes `risk_pct = 8%` and
`stop = close × 0.92`; consequently the returned risk percentage (the
`risk_pct` output field, reported as a percent) always lies in `(0, 15]`,
never unbounded or negative. -/
theorem risk_substitution_and_bounds (inp : ScoreInputs)
    (hclose : inp.close ≠ 0) :
    ((raw_risk_pct inp ≤ 0 ∨ 15/100 < raw_risk_pct inp) →
      (scoreCore inp).risk_pct = 8 ∧
      (scoreCore inp).stop = inp.close * (92/100)) ∧
    0 < (scoreCore inp).risk_pct ∧ (scoreCore inp).risk_pct ≤ 15 := by
  have hpct : (scoreCore inp).risk_pct = (final_risk inp).1 * 100 := rfl
  have hstop : (scoreCore inp).stop = (final_risk inp).2 := rfl
  by_cases h : raw_risk_pct inp ≤ 0 ∨ 15/100 < raw_risk_pct inp
  · have hf : final_risk inp = (8/100, inp.close * (92/100)) := by
      unfold final_risk
      rw [if_pos (by tauto)]
    rw [hpct, hstop, hf]
    norm_num
  · push_neg at h
    have hf : final_risk inp = (raw_risk_pct inp, stop_before_risk inp) := by
      unfold final_risk
      rw [if_neg (by push_neg; exact ⟨h.1, h.2⟩)]
    rw [hpct, hf]
    refine ⟨fun hc => absurd hc (by push_neg; exact ⟨h.1, h.2⟩), ?_, ?_⟩
    · have := h.1
      nlinarith
    · have := h.2
      nlinarith

/-- Witness for C3 at `allTriggerInputs` (its raw risk is 5%, within
bounds, so no substitution fires and the bounds hold). -/
theorem risk_substitution_and_bounds_witness :
    allTriggerInputs.close ≠ 0 ∧
    (((raw_risk_pct allTriggerInputs ≤ 0 ∨ 15/100 < raw_risk_pct allTriggerInputs) →
      (scoreCore allTriggerInputs).risk_pct = 8 ∧
      (scoreCore allTriggerInputs).stop = allTriggerInputs.close * (92/100)) ∧
    0 < (scoreCore allTriggerInputs).risk_pct ∧
      (scoreCore allTriggerInputs).risk_pct ≤ 15) :=
  ⟨by decide, risk_substitution_and_bounds allTriggerInputs (by decide)⟩

/-! Market-regime doubling of the risk deduction (C4). -/

theorem risk_deduction_below_as_doubled (p : ℚ) :
    max 0 (10 - risk_deduction false p) = max 0 (10 - 2 * risk_deduction true p) := by
  have hf : risk_deduction false p =
      if p ≤ 5 then 0 else if p ≤ 6 then 2 else if p ≤ 7 then 4
      else if p ≤ 8 then 6 else 10 := by
    simp [risk_deduction]
  have ht : risk_deduction true p =
      if p ≤ 5 then 0 else if p ≤ 6 then 1 else if p ≤ 7 then 2
      else if p ≤ 8 then 3 else if p ≤ 9 then 5 else if p ≤ 10 then 7
      else if p ≤ 11 then 9 else 10 := by
    simp [risk_deduction]
  rw [hf, ht]
  split_ifs <;> omega

/-- C4. statement: With the market-regime flag `index_above_ma20 = False` and all
other inputs equal, the risk sub-score equals `max(0, 10 − 2·d)` where `d`
is the deduction the normal (`True`) regime applies to the same risk
percentage — the weak-regime deduction is the doubled normal deduction,
with the sub-score floored at 0. -/
theorem risk_score_regime_doubling (inp : ScoreInputs)
    (hclose : inp.close ≠ 0) :
    (scoreCore { inp with index_above_ma20 := false }).risk_score =
      max 0 (10 - 2 * risk_deduction true ((final_risk inp).1 * 100)) ∧
    (scoreCore { inp with index_above_ma20 := true }).risk_score =
      max 0 (10 - risk_deduction true ((final_risk inp).1 * 100)) := by
  constructor
  · have h : (scoreCore { inp with index_above_ma20 := false }).risk_score =
        max 0 (10 - risk_deduction false ((final_risk inp).1 * 100)) := rfl
    rw [h, risk_deduction_below_as_doubled]
  · rfl

/-- Witness for C4 at `sampleInputs` (both regime runs applied at the
same concrete input). -/
theorem risk_score_regime_doubling_witness :
    sampleInputs.close ≠ 0 ∧
    ((scoreCore { sampleInputs with index_above_ma20 := false }).risk_score =
      max 0 (10 - 2 * risk_deduction true ((final_risk sampleInputs).1 * 100)) ∧
    (scoreCore { sampleInputs with index_above_ma20 := true }).risk_score =
      max 0 (10 - risk_deduction true ((final_risk sampleInputs).1 * 100))) :=
  ⟨by decide, risk_score_regime_doubling sampleInputs (by decide)⟩

/-! Per-symbol step of `update_daily.main` (update_daily.py lines 246–252). -/

/-- The per-symbol evaluation of the daily scan: `None` (symbol skipped,
nothing emitted) unless the fetched series has at least 200 bars, its last
5 volumes do not sum to zero, and the last close is at least
`cfg.universe.min_close`; otherwise the `score_stock` result.  The
orchestrator calls `score_stock` with its default flow/RS/regime
arguments at this step. -/
def update_daily_symbol_step (sq : ℚ → ℚ) (df : Option (List Bar))
    (cfg : Config) : Option ScoreResult :=
  match df with
  | none => none
  | some df =>
    if df.length < 200 then none
    else if (lastN 5 (df.map (·.Volume))).sum = 0 then none
    else if (df.map (·.Close)).getLastD 0 < cfg.min_close then none
    else score_stock df (calculate_signals sq df cfg) none 0 0 true

/-- C6. statement: The per-symbol evaluation yields no result when the price
series has fewer bars than the required minimum (200), when all recent
(last-5) volume is zero, or when the last close is below
`config.universe.min_close`. -/
theorem update_daily_skip_conditions (sq : ℚ → ℚ) (df : List Bar)
    (cfg : Config) :
    (df.length < 200 → update_daily_symbol_step sq (some df) cfg = none) ∧
    ((∀ v ∈ lastN 5 (df.map (·.Volume)), v = 0) →
      update_daily_symbol_step sq (some df) cfg = none) ∧
    ((df.map (·.Close)).getLastD 0 < cfg.min_close →
      update_daily_symbol_step sq (some df) cfg = none) := by
  refine ⟨fun h => ?_, fun h => ?_, fun h => ?_⟩
  · simp only [update_daily_symbol_step]
    rw [if_pos h]
  · by_cases h1 : df.length < 200
    · simp only [update_daily_symbol_step]
      rw [if_pos h1]
    · simp only [update_daily_symbol_step]
      rw [if_neg h1, if_pos (List.sum_eq_zero h)]
  · by_cases h1 : df.length < 200
    · simp only [update_daily_symbol_step]
      rw [if_pos h1]
    · by_cases h2 : (lastN 5 (df.map (·.Volume))).sum = 0
      · simp only [update_daily_symbol_step]
        rw [if_neg h1, if_pos h2]
      · simp only [update_daily_symbol_step]
        rw [if_neg h1, if_neg h2, if_pos h]

/-- A flat bar with zero volume. -/
def zeroVolBar : Bar := ⟨1, 1, 1, 1, 0⟩

/-- A flat bar priced at 1 with volume 1. -/
def unitBar : Bar := ⟨1, 1, 1, 1, 1⟩

/-- Witness for C6: each skip condition fired at a concrete input — an
empty series, a 7-bar series whose recent volume is all zero, and a
200-bar series whose close sits below the configured floor. -/
theorem update_daily_skip_conditions_witness :
    update_daily_symbol_step id (some []) {} = none ∧
    update_daily_symbol_step id (some (List.replicate 7 zeroVolBar)) {} = none ∧
    update_daily_symbol_step id (some (List.replicate 200 unitBar))
      { min_close := 1000 } = none :=
  ⟨(update_daily_skip_conditions id [] {}).1 (by decide),
   (update_daily_skip_conditions id (List.replicate 7 zeroVolBar) {}).2.1 (by decide),
   (update_daily_skip_conditions id (List.replicate 200 unitBar)
      { min_close := 1000 }).2.2 (by decide)⟩

/-! The `ma60` output field (C9). -/

theorem getLastD_range_map {β : Type} (f : ℕ → β) (L : ℕ) (hL : 0 < L)
    (d : β) : (((List.range L).map f).getLastD d) = f (L - 1) := by
  obtain ⟨M, rfl⟩ : ∃ M, L = M + 1 := ⟨L - 1, by omega⟩
  rw [List.range_succ, List.map_append]
  simp

/-- At the final bar of a plain (fully defined) series of length at least
`n > 0`, the rolling `n`-bar mean is defined and equals the mean of the
last `n` values. -/
theorem rollingMean_getLastD (n : ℕ) (xs : List ℚ) (hn : 0 < n)
    (hlen : n ≤ xs.length) :
    (rollingMean n (xs.map some)).getLastD none =
      some ((lastN n xs).sum / n) := by
  have hL : 0 < (xs.map some : OSeries).length := by
    simp only [List.length_map]
    omega
  rw [rollingMean, getLastD_range_map _ _ hL]
  have hlen' : (xs.map some : OSeries).length = xs.length := by simp
  rw [hlen', rollingMeanAt, if_neg (by omega), windowAt_map_some,
    listAllSome_map_some]
  have hw : windowAt n xs (xs.length - 1) = lastN n xs := by
    unfold windowAt lastN
    have h1 : xs.length - 1 + 1 = xs.length := by omega
    rw [h1, List.take_length]
  rw [hw]

/-- C9. statement: In every result returned by `score_stock`, the output field
named `ma60` is the value extracted from `sig["ma50"]` at the final bar
(with `close` substituted when that series value is indeterminate), and
through `calculate_signals` that value is the 50-bar simple rolling mean
of close at the final bar — not a 60-bar average. -/
theorem ma60_output_is_ma50 :
    (∀ (df : List Bar) (sig : SigSet) (inv : Option InvestorFlow)
      (r3 r6 : ℚ) (ix : Bool),
      ∃ res, score_stock df (some sig) inv r3 r6 ix = some res ∧
        res.ma60 = safe_get sig.ma50 ((df.map (·.Close)).getLastD 0)) ∧
    (∀ (sq : ℚ → ℚ) (df : List Bar) (cfg : Config) (inv : Option InvestorFlow)
      (r3 r6 : ℚ) (ix : Bool), 60 ≤ df.length →
      ∃ res, score_stock df (calculate_signals sq df cfg) inv r3 r6 ix = some res ∧
        res.ma60 = (lastN 50 (df.map (·.Close))).sum / 50) := by
  constructor
  · intro df sig inv r3 r6 ix
    exact ⟨_, rfl, rfl⟩
  · intro sq df cfg inv r3 r6 ix hlen
    unfold calculate_signals
    rw [if_neg (by omega)]
    refine ⟨_, rfl, ?_⟩
    show safe_get (rollingMean 50 ((df.map (·.Close)).map some))
        ((df.map (·.Close)).getLastD 0) = (lastN 50 (df.map (·.Close))).sum / 50
    unfold safe_get
    rw [rollingMean_getLastD 50 (df.map (·.Close)) (by norm_num)
      (by simp only [List.length_map]; omega)]
    rfl

/-- Witness for C9 at a 60-bar constant series. -/
theorem ma60_output_is_ma50_witness :
    60 ≤ (List.replicate 60 unitBar).length ∧
    ∃ res, score_stock (List.replicate 60 unitBar)
        (calculate_signals id (List.replicate 60 unitBar) {}) none 0 0 true = some res ∧
      res.ma60 = (lastN 50 ((List.replicate 60 unitBar).map (·.Close))).sum / 50 :=
  ⟨by decide,
   ma60_output_is_ma50.2 id (List.replicate 60 unitBar) {} none 0 0 true (by decide)⟩

/-! Embedding of `merge_chunks.main` (merge_chunks.py lines 6–31). -/

/-- One row of a partial result file, with the two columns the merge
logic consults: the symbol `code` and the `total_score`. -/
structure Row where
  code : String
  total_score : ℚ
deriving DecidableEq

/-- Model of `DataFrame.drop_duplicates(subset=["code"], keep="first")`:
keep the first row of each distinct code. -/
def drop_duplicates_code : List Row → List Row
  | [] => []
  | r :: rs => r :: drop_duplicates_code (rs.filter (fun x => x.code != r.code))
termination_by l => l.length
decreasing_by
  simp only [List.length_cons]
  exact Nat.lt_succ_of_le (List.length_filter_le _ _)

/-- The descending `sort_values("total_score", ascending=False)` order. -/
def byScoreDesc (a b : Row) : Bool := decide (b.total_score ≤ a.total_score)

/-- Model of `merge_chunks.main` on already-parsed partial frames: concatenate,
de-duplicate by code keeping the first occurrence, sort by `total_score`
descending.  (Unreadable or empty input files contribute no rows.) -/
def merge_chunks (dfs : List (List Row)) : List Row :=
  let out := dfs.flatten
  let out := drop_duplicates_code out
  out.mergeSort byScoreDesc

/-! Lemmas about `drop_duplicates_code`. -/

theorem mem_of_mem_drop_duplicates_code (x : Row) :
    ∀ l : List Row, x ∈ drop_duplicates_code l → x ∈ l := by
  intro l
  induction l using drop_duplicates_code.induct with
  | case1 => simp [drop_duplicates_code]
  | case2 r rs ih =>
    rw [drop_duplicates_code]
    intro hx
    rcases List.mem_cons.mp hx with h | h
    · exact h ▸ List.mem_cons_self _ _
    · exact List.mem_cons_of_mem _ (List.mem_of_mem_filter (ih h))

theorem drop_duplicates_code_codes_nodup :
    ∀ l : List Row, ((drop_duplicates_code l).map (·.code)).Nodup := by
  intro l
  induction l using drop_duplicates_code.induct with
  | case1 => simp [drop_duplicates_code]
  | case2 r rs ih =>
    rw [drop_duplicates_code]
    simp only [List.map_cons, List.nodup_cons]
    refine ⟨?_, ih⟩
    intro hmem
    rcases List.mem_map.mp hmem with ⟨y, hy, hcode⟩
    have hyf := mem_of_mem_drop_duplicates_code y _ hy
    have := List.of_mem_filter hyf
    simp only [bne_iff_ne, ne_eq] at this
    exact this hcode

theorem find?_filter_of_imp (p q : Row → Bool)
    (himp : ∀ a, p a = true → q a = true) :
    ∀ l : List Row, (l.filter q).find? p = l.find? p := by
  intro l
  induction l with
  | nil => rfl
  | cons a l ih =>
    by_cases hq : q a
    · rw [List.filter_cons_of_pos hq]
      by_cases hp : p a
      · rw [List.find?_cons_of_pos _ hp, List.find?_cons_of_pos _ hp]
      · rw [List.find?_cons_of_neg _ hp, List.find?_cons_of_neg _ hp]
        exact ih
    · rw [List.filter_cons_of_neg hq]
      have hp : ¬ p a = true := fun hpa => hq (himp a hpa)
      rw [List.find?_cons_of_neg _ hp]
      exact ih

/-- Every row kept by the de-duplication is the first row of its code in
the original list. -/
theorem drop_duplicates_code_keeps_first (x : Row) :
    ∀ l : List Row, x ∈ drop_duplicates_code l →
      l.find? (fun y => y.code == x.code) = some x := by
  intro l
  induction l using drop_duplicates_code.induct with
  | case1 => simp [drop_duplicates_code]
  | case2 r rs ih =>
    rw [drop_duplicates_code]
    intro hx
    rcases List.mem_cons.mp hx with h | h
    · subst h
      rw [List.find?_cons_of_pos _ (by simp)]
    · have hne : x.code ≠ r.code := by
        have hyf := mem_of_mem_drop_duplicates_code x _ h
        have := List.of_mem_filter hyf
        simpa [bne_iff_ne] using this
      rw [List.find?_cons_of_neg _ (by simpa using fun hc => hne hc.symm)]
      rw [← find?_filter_of_imp (fun y => y.code == x.code)
        (fun y => y.code != r.code) ?_ rs]
      · exact ih h
      · intro a ha
        have : a.code = x.code := by simpa using ha
        simp [this, hne]

/-- Every code of the original list survives de-duplication. -/
theorem drop_duplicates_code_covers (x : Row) :
    ∀ l : List Row, x ∈ l →
      ∃ y ∈ drop_duplicates_code l, y.code = x.code := by
  intro l
  induction l using drop_duplicates_code.induct with
  | case1 => simp
  | case2 r rs ih =>
    rw [drop_duplicates_code]
    intro hx
    rcases List.mem_cons.mp hx with h | h
    · exact ⟨r, List.mem_cons_self _ _, by rw [h]⟩
    · by_cases hc : x.code = r.code
      · exact ⟨r, List.mem_cons_self _ _, hc.symm⟩
      · have hf : x ∈ rs.filter (fun y => y.code != r.code) :=
          List.mem_filter.mpr ⟨h, by simpa using hc⟩
        rcases ih hf with ⟨y, hy, hyc⟩
        exact ⟨y, List.mem_cons_of_mem _ hy, hyc⟩

/-- C7. statement: Given any collection of partial result sets, the merged
output of `merge_chunks.main` contains exactly one row per distinct code
— the first-seen row of the concatenation is the one kept — and the
merged rows are sorted in descending order of `total_score`. -/
theorem merge_chunks_dedup_and_sorted (dfs : List (List Row)) :
    ((merge_chunks dfs).map (·.code)).Nodup ∧
    (∀ r ∈ merge_chunks dfs,
      (dfs.flatten).find? (fun y => y.code == r.code) = some r) ∧
    (∀ r ∈ dfs.flatten, ∃ y ∈ merge_chunks dfs, y.code = r.code) ∧
    (merge_chunks dfs).Pairwise (fun a b => b.total_score ≤ a.total_score) := by
  have hperm : (merge_chunks dfs).Perm (drop_duplicates_code dfs.flatten) :=
    List.mergeSort_perm (drop_duplicates_code dfs.flatten) byScoreDesc
  refine ⟨?_, ?_, ?_, ?_⟩
  · exact ((hperm.map (·.code)).nodup_iff).mpr
      (drop_duplicates_code_codes_nodup dfs.flatten)
  · intro r hr
    exact drop_duplicates_code_keeps_first r dfs.flatten (hperm.mem_iff.mp hr)
  · intro r hr
    rcases drop_duplicates_code_covers r dfs.flatten hr with ⟨y, hy, hyc⟩
    exact ⟨y, hperm.mem_iff.mpr hy, hyc⟩
  · have hs := @List.sorted_mergeSort Row byScoreDesc
      (fun a b c hab hbc => by
        simp only [byScoreDesc, decide_eq_true_eq] at hab hbc ⊢
        exact le_trans hbc hab)
      (fun a b => by
        simp only [byScoreDesc]
        rcases le_total b.total_score a.total_score with h | h <;> simp [h])
      (drop_duplicates_code dfs.flatten)
    exact hs.imp (fun h => by simpa [byScoreDesc] using h)

/-- A sample merged row. -/
def sampleRow : Row := ⟨"005930", 87⟩

/-- Witness for C7: the single row of a one-shard input survives the
merge (its code appears in the merged output). -/
theorem merge_chunks_dedup_and_sorted_witness :
    ∃ y ∈ merge_chunks [[sampleRow]], y.code = sampleRow.code :=
  (merge_chunks_dedup_and_sorted [[sampleRow]]).2.2.1 sampleRow (by decide)

/-! Embedding of `calculate_strategies` (scanner_core.py lines 299–442). -/

/-- One strategy candidate row (the dict the source builds per strategy). -/
structure Strategy where
  type : String
  name : String
  entry : ℚ
  stop : ℚ
  risk : ℚ
  candidate : Bool
  rank : ℤ := 0
deriving DecidableEq

/-- The sort key `lambda x: (not x['candidate'], x['risk'])` as a boolean
order: active candidates first, then ascending risk. -/
def stratLe (a b : Strategy) : Bool :=
  (a.candidate && !b.candidate)
    || (a.candidate == b.candidate && decide (a.risk ≤ b.risk))

/-- The rank-assignment loop `for i, s in enumerate(strategies):
s['rank'] = i + 1`, started at 1. -/
def assignRanks : ℤ → List Strategy → List Strategy
  | _, [] => []
  | i, s :: rest => { s with rank := i } :: assignRanks (i + 1) rest

/-- Fallback row for positional indexing (never reached: the strategy
list always holds exactly three rows). -/
def defaultStrategy : Strategy :=
  { type := "", name := "", entry := 0, stop := 0, risk := 0, candidate := false }

/-- The record `calculate_strategies` returns. -/
structure StratResult where
  strategies : List Strategy
  strat1_type : String
  strat1_name : String
  strat1_entry : ℚ
  strat1_stop : ℚ
  strat1_risk : ℚ
  strat2_type : String
  strat2_name : String
  strat2_entry : ℚ
  strat2_stop : ℚ
  strat2_risk : ℚ
  strat3_type : String
  strat3_name : String
  strat3_entry : ℚ
  strat3_stop : ℚ
  strat3_risk : ℚ

/-- Model of `calculate_strategies(df, sig, cfg)`: three entry/stop/risk candidates
(pullback, breakout, O'Neil momentum pivot), ranked with active patterns
first and lower risk first within a tier.  `None` when `sig` is `None` or
the series holds fewer than 20 bars. -/
def calculate_strategies (df : List Bar) (sig : Option SigSet) :
    Option StratResult :=
  match sig with
  | none => none
  | some sig =>
    if df.length < 20 then none
    else
      let closes := df.map (·.Close)
      let close := closes.getLastD 0
      let ma20 := safe_get sig.ma20 close
      let ma10 := if 10 ≤ df.length then (lastN 10 closes).sum / 10 else close
      let bb_upper := safe_get sig.upper (close * (105/100))
      let climax_low := safe_get sig.climax_low 0
      let tr := true_range (df.map (·.High)) (df.map (·.Low)) closes
      let atr20 := if 20 ≤ df.length then (lastN 20 tr).sum / 20
        else close * (2/100)
      let swing_low := ((lastN 10 (df.map (·.Low))).min?).getD 0
      let base_stop := if climax_low > 0 then climax_low else swing_low
      let pullback_entry := ma20
      let pullback_stop0 := max base_stop (pullback_entry - (12/10) * atr20)
      let pullback_stop := if pullback_stop0 ≥ pullback_entry
        then pullback_entry * (95/100) else pullback_stop0
      let pullback_risk := if pullback_entry > 0
        then (pullback_entry - pullback_stop) / pullback_entry * 100 else 99
      let is_pullback_candidate := decide (close ≥ ma20 * (97/100))
        && decide (close ≤ ma20 * (105/100)) && decide (climax_low > 0)
      let breakout_entry := if bb_upper > close then bb_upper
        else close * (102/100)
      let breakout_stop0 := breakout_entry - (15/10) * atr20
      let breakout_stop := if breakout_stop0 ≥ breakout_entry
        then breakout_entry * (95/100) else breakout_stop0
      let breakout_risk := if breakout_entry > 0
        then (breakout_entry - breakout_stop) / breakout_entry * 100 else 99
      let door_knock := safe_bool sig.door_knock
      let squeeze := safe_bool sig.squeeze
      let is_breakout_candidate := door_knock || squeeze
      let oneil_entry := close
      let oneil_stop0 := max ma10 (close - atr20)
      let oneil_stop := if oneil_stop0 ≥ oneil_entry
        then oneil_entry * (94/100) else oneil_stop0
      let oneil_risk := if oneil_entry > 0
        then (oneil_entry - oneil_stop) / oneil_entry * 100 else 99
      let vols := df.map (·.Volume)
      let vol_ma := if 20 ≤ df.length then (lastN 20 vols).sum / 20
        else vols.sum / vols.length
      let oneilPat : Bool × String :=
        match lastN 2 df with
        | [prev, today] =>
          if today.High < prev.High ∧ today.Low > prev.Low then
            (true, "Inside Day")
          else if today.Open < prev.Low ∧ today.Close > prev.Low then
            (true, "Oops Reversal")
          else if today.Volume > vol_ma * 2 ∧ today.Close > today.Open then
            (true, "Pocket Pivot")
          else (false, "")
        | _ => (false, "")
      let is_oneil_candidate := oneilPat.1
      let oneil_pattern := oneilPat.2
      let strategies : List Strategy :=
        [{ type := "pullback", name := "눌림목", entry := pullback_entry,
           stop := pullback_stop, risk := pullback_risk,
           candidate := is_pullback_candidate },
         { type := "breakout", name := "돌파", entry := breakout_entry,
           stop := breakout_stop, risk := breakout_risk,
           candidate := is_breakout_candidate },
         { type := "oneil",
           name := if oneil_pattern ≠ "" then oneil_pattern else "오닐",
           entry := oneil_entry, stop := oneil_stop, risk := oneil_risk,
           candidate := is_oneil_candidate }]
      let ranked := assignRanks 1 (strategies.mergeSort stratLe)
      some {
        strategies := ranked
        strat1_type := (ranked.getD 0 defaultStrategy).type
        strat1_name := (ranked.getD 0 defaultStrategy).name
        strat1_entry := (ranked.getD 0 defaultStrategy).entry
        strat1_stop := (ranked.getD 0 defaultStrategy).stop
        strat1_risk := (ranked.getD 0 defaultStrategy).risk
        strat2_type := (ranked.getD 1 defaultStrategy).type
        strat2_name := (ranked.getD 1 defaultStrategy).name
        strat2_entry := (ranked.getD 1 defaultStrategy).entry
        strat2_stop := (ranked.getD 1 defaultStrategy).stop
        strat2_risk := (ranked.getD 1 defaultStrategy).risk
        strat3_type := (ranked.getD 2 defaultStrategy).type
        strat3_name := (ranked.getD 2 defaultStrategy).name
        strat3_entry := (ranked.getD 2 defaultStrategy).entry
        strat3_stop := (ranked.getD 2 defaultStrategy).stop
        strat3_risk := (ranked.getD 2 defaultStrategy).risk }

/-! Ranking-order lemmas. -/

theorem stratLe_trans (a b c : Strategy) (hab : stratLe a b = true)
    (hbc : stratLe b c = true) : stratLe a c = true := by
  simp only [stratLe, Bool.or_eq_true, Bool.and_eq_true, beq_iff_eq,
    Bool.not_eq_true', decide_eq_true_eq] at hab hbc ⊢
  rcases hab with ⟨ha, hb⟩ | ⟨hab', hr⟩ <;>
    rcases hbc with ⟨hb', hc⟩ | ⟨hbc', hr'⟩
  · exact Or.inl ⟨ha, hc⟩
  · exact Or.inl ⟨ha, hbc' ▸ hb⟩
  · exact Or.inl ⟨hab' ▸ hb', hc⟩
  · exact Or.inr ⟨hab'.trans hbc', le_trans hr hr'⟩

theorem stratLe_total (a b : Strategy) :
    (stratLe a b || stratLe b a) = true := by
  simp only [stratLe, Bool.or_eq_true, Bool.and_eq_true, beq_iff_eq,
    Bool.not_eq_true', decide_eq_true_eq]
  cases ha : a.candidate <;> cases hb : b.candidate <;>
    simp [ha, hb, le_total a.risk b.risk]

/-- What a single sorted-order fact says about the claim's relation. -/
theorem stratLe_imp (a b : Strategy) (h : stratLe a b = true) :
    (b.candidate = true → a.candidate = true) ∧
    (a.candidate = b.candidate → a.risk ≤ b.risk) := by
  simp only [stratLe, Bool.or_eq_true, Bool.and_eq_true, beq_iff_eq,
    Bool.not_eq_true', decide_eq_true_eq] at h
  rcases h with ⟨ha, hb⟩ | ⟨hab, hr⟩
  · refine ⟨fun _ => ha, fun hc => ?_⟩
    rw [ha, hb] at hc
    exact absurd hc (by simp)
  · exact ⟨fun hb => hab.trans hb, fun _ => hr⟩

/-- Rank assignment preserves every other field of each member. -/
theorem assignRanks_mem (s : Strategy) :
    ∀ (i : ℤ) (l : List Strategy), s ∈ assignRanks i l →
      ∃ x ∈ l, s.entry = x.entry ∧ s.stop = x.stop ∧ s.risk = x.risk ∧
        s.candidate = x.candidate := by
  intro i l
  induction l generalizing i with
  | nil => simp [assignRanks]
  | cons a t ih =>
    intro hs
    simp only [assignRanks, List.mem_cons] at hs
    rcases hs with h | h
    · exact ⟨a, List.mem_cons_self _ _, by rw [h], by rw [h], by rw [h], by rw [h]⟩
    · rcases ih (i + 1) h with ⟨x, hx, hprops⟩
      exact ⟨x, List.mem_cons_of_mem _ hx, hprops⟩

/-- Sorting then ranking any three strategy rows yields a list ordered by
the claim's relation, with ranks `[1, 2, 3]`. -/
theorem ranked_three_sorted (p b o : Strategy) :
    List.Pairwise (fun a b' =>
      (b'.candidate = true → a.candidate = true) ∧
      (a.candidate = b'.candidate → a.risk ≤ b'.risk))
      (assignRanks 1 ([p, b, o].mergeSort stratLe)) ∧
    (assignRanks 1 ([p, b, o].mergeSort stratLe)).map (·.rank) = [1, 2, 3] := by
  have hperm := List.mergeSort_perm [p, b, o] stratLe
  have hlen : ([p, b, o].mergeSort stratLe).length = 3 := by
    rw [hperm.length_eq]
    rfl
  obtain ⟨x, y, z, hxyz⟩ := List.length_eq_three.mp hlen
  have hsorted := @List.sorted_mergeSort Strategy stratLe stratLe_trans
    (fun a b' => stratLe_total a b') [p, b, o]
  rw [hxyz] at hsorted ⊢
  simp only [List.pairwise_cons, List.mem_cons, List.mem_singleton,
    List.not_mem_nil, List.Pairwise.nil] at hsorted
  obtain ⟨hx, hy, _⟩ := hsorted
  have hxy := stratLe_imp x y (hx y (Or.inl rfl))
  have hxz := stratLe_imp x z (hx z (Or.inr (Or.inl rfl)))
  have hyz := stratLe_imp y z (hy z (Or.inl rfl))
  constructor
  · simp only [assignRanks, List.pairwise_cons, List.mem_cons,
      List.mem_singleton, List.not_mem_nil]
    refine ⟨?_, ?_, ?_⟩
    · intro a ha
      rcases ha with h | h | h
      · subst h
        exact hxy
      · subst h
        exact hxz
      · exact absurd h (by simp)
    · intro a ha
      rcases ha with h | h
      · subst h
        exact hyz
      · exact absurd h (by simp)
    · exact ⟨fun _ h => absurd h (by simp), List.Pairwise.nil⟩
  · simp [assignRanks]

/-- C8. statement: `calculate_strategies` orders its three candidates so that
every candidate with a detected/active pattern precedes every inactive
one, within the same activity tier candidates appear in ascending order
of risk percentage, and ranks 1, 2, 3 are assigned in that order. -/
theorem calculate_strategies_ranking (df : List Bar) (ss : SigSet)
    (h20 : 20 ≤ df.length) :
    ∃ r, calculate_strategies df (some ss) = some r ∧
      List.Pairwise (fun a b' =>
        (b'.candidate = true → a.candidate = true) ∧
        (a.candidate = b'.candidate → a.risk ≤ b'.risk)) r.strategies ∧
      r.strategies.map (·.rank) = [1, 2, 3] := by
  simp only [calculate_strategies]
  rw [if_neg (by omega)]
  exact ⟨_, rfl, (ranked_three_sorted _ _ _).1, (ranked_three_sorted _ _ _).2⟩

/-- A concrete signal set (all series empty: every extraction falls back
to its documented default). -/
def emptySig : SigSet :=
  { upper := [], lower := [], mid := [], bbw_pct := [], adx := [],
    ma20 := [], ma50 := [], ma200 := [], vol_ma20 := [], vol_confirm := [],
    climax_high := [], climax_low := [], is_climax := [], door_knock := [],
    squeeze := [], vol_explosion := [], vol_dryup_count := [],
    setup_a := [], setup_b := [], setup_c := [] }

/-- Witness for C8 at a 20-bar series and the empty signal set. -/
theorem calculate_strategies_ranking_witness :
    20 ≤ (List.replicate 20 unitBar).length ∧
    ∃ r, calculate_strategies (List.replicate 20 unitBar) (some emptySig) = some r ∧
      List.Pairwise (fun a b' =>
        (b'.candidate = true → a.candidate = true) ∧
        (a.candidate = b'.candidate → a.risk ≤ b'.risk)) r.strategies ∧
      r.strategies.map (·.rank) = [1, 2, 3] :=
  ⟨by decide,
   calculate_strategies_ranking (List.replicate 20 unitBar) emptySig (by decide)⟩

/-! Stop-versus-entry safety of the three candidates (C10). -/

theorem stop_guard_lt (entry s0 c : ℚ) (hc : c < 1) (he : 0 < entry) :
    (if s0 ≥ entry then entry * c else s0) < entry := by
  split_ifs with h
  · nlinarith
  · exact lt_of_not_ge h

/-- The source's floor-guarded stop stays strictly below the entry and
its reported risk percentage is strictly positive, for a positive entry. -/
theorem strategy_guard_ok (entry s0 c : ℚ) (hc : c < 1) (he : 0 < entry) :
    (if s0 ≥ entry then entry * c else s0) < entry ∧
    0 < (if entry > 0 then
        (entry - (if s0 ≥ entry then entry * c else s0)) / entry * 100
      else 99) := by
  have h1 := stop_guard_lt entry s0 c hc he
  refine ⟨h1, ?_⟩
  rw [if_pos he]
  exact mul_pos (div_pos (by linarith) he) (by norm_num)

/-- Membership in the sorted-and-ranked triple comes from one of the
three constructed rows, with entry/stop/risk unchanged. -/
theorem mem_ranked_three (s p b o : Strategy)
    (hs : s ∈ assignRanks 1 ([p, b, o].mergeSort stratLe)) :
    ∃ x, (x = p ∨ x = b ∨ x = o) ∧ s.entry = x.entry ∧ s.stop = x.stop ∧
      s.risk = x.risk := by
  rcases assignRanks_mem s 1 _ hs with ⟨x, hx, he, hst, hr, _⟩
  have hmem : x ∈ [p, b, o] :=
    (List.mergeSort_perm [p, b, o] stratLe).mem_iff.mp hx
  simp only [List.mem_cons, List.mem_singleton, List.not_mem_nil,
    or_false] at hmem
  exact ⟨x, hmem, he, hst, hr⟩

/-- C10. statement: For every input on which `calculate_strategies` returns a
result, each of the three candidates (pullback, breakout, momentum-pivot)
with a positive entry price satisfies `stop < entry` strictly, so its
reported risk percentage is strictly positive; in particular when all
three entry prices are positive this holds for all three candidates. -/
theorem calculate_strategies_stop_below_entry (df : List Bar) (ss : SigSet)
    (h20 : 20 ≤ df.length) :
    ∃ r, calculate_strategies df (some ss) = some r ∧
      ∀ s ∈ r.strategies, 0 < s.entry → s.stop < s.entry ∧ 0 < s.risk := by
  simp only [calculate_strategies]
  rw [if_neg (by omega)]
  refine ⟨_, rfl, ?_⟩
  intro s hs hentry
  rcases mem_ranked_three s _ _ _ hs with ⟨x, hx, he, hst, hr⟩
  rw [he] at hentry
  rw [hst, he, hr]
  rcases hx with rfl | rfl | rfl
  · exact strategy_guard_ok _ _ _ (by norm_num) hentry
  · exact strategy_guard_ok _ _ _ (by norm_num) hentry
  · exact strategy_guard_ok _ _ _ (by norm_num) hentry

/-- Witness for C10 at a 20-bar series and the empty signal set. -/
theorem calculate_strategies_stop_below_entry_witness :
    20 ≤ (List.replicate 20 unitBar).length ∧
    ∃ r, calculate_strategies (List.replicate 20 unitBar) (some emptySig) = some r ∧
      ∀ s ∈ r.strategies, 0 < s.entry → s.stop < s.entry ∧ 0 < s.risk :=
  ⟨by decide,
   calculate_strategies_stop_below_entry (List.replicate 20 unitBar) emptySig (by decide)⟩
